import Mathlib

/-
Verification of the webpack packages configuration (tools/webpack/packages.js).

The JavaScript source is embedded shallowly:
  * strings are Lean String values (lists of characters);
  * the regex replace of camelCaseDash is a left-to-right scan over characters;
  * JS objects used as ordered string-keyed maps are association lists;
  * the nodejs path join is modelled for the dot-segment-free relative paths
    used in this file as insertion of a single separator;
  * the external minifiers (UglifyJS, cssnano via postcss) are abstract
    parameters returning Except values: a thrown error is Except.error;
  * copy instructions and the configuration object are Lean structures.
-/

/-- Models the regex character class of lowercase ASCII letters (a to z), by code points. -/
def isLowerAZ (c : Char) : Bool := decide (97 ≤ c.toNat ∧ c.toNat ≤ 122)

/-- Models JS toUpperCase on the matched character, restricted to ASCII lowercase. -/
def jsToUpper (c : Char) : Char :=
  if isLowerAZ c then Char.ofNat (c.toNat - 32) else c

/-- Models the ASCII digits 0 to 9, by code points. -/
def isDigit09 (c : Char) : Bool := decide (48 ≤ c.toNat ∧ c.toNat ≤ 57)

/-- Lines 37-42: left-to-right non-overlapping scan of the global regex replace
    of each dash-lowercase pair by the upper-cased letter. -/
def ccdAux : List Char → List Char
  | [] => []
  | ['-'] => ['-']
  | '-' :: d :: rest =>
      if isLowerAZ d then jsToUpper d :: ccdAux rest
      else '-' :: ccdAux (d :: rest)
  | c :: rest => c :: ccdAux rest

/-- Lines 37-42: camelCaseDash. -/
def camelCaseDash (s : String) : String := String.mk (ccdAux s.data)

/-- Adjacent pairs of characters never form a dash-lowercase match. -/
def noDashLower : List Char → Bool
  | c :: d :: rest => (!(decide (c = ('-')) && isLowerAZ d)) && noDashLower (d :: rest)
  | _ => true

/-- Models nodejs path join for the dot-segment-free relative paths used in this file. -/
def joinPath (a b : String) : String := a ++ "/" ++ b

/-- Line 65. -/
def WORDPRESS_NAMESPACE : String := "@wordpress/"

/-- Models the JS startsWith test. -/
def jsStartsWith (s pat : String) : Bool := pat.data.isPrefixOf s.data

/-- Splits a list around the first occurrence of a pattern, if any. -/
def splitAtFirst (pat : List Char) : List Char → Option (List Char × List Char)
  | [] => if pat.isPrefixOf ([] : List Char) then some ([], []) else none
  | c :: rest =>
      if pat.isPrefixOf (c :: rest) then some ([], (c :: rest).drop pat.length)
      else
        match splitAtFirst pat rest with
        | none => none
        | some p => some (c :: p.1, p.2)

/-- Models the JS string replace with a string pattern: only the first occurrence
    is replaced; the input is returned unchanged when the pattern does not occur. -/
def jsReplaceFirst (s pat rep : String) : String :=
  match splitAtFirst pat.data s.data with
  | none => s
  | some p => String.mk (p.1 ++ rep.data ++ p.2)

/-- Lines 66-68: filter the dependency names by the namespace and strip it.
    The dependency manifest is an ordered name-to-version map. -/
def packages (deps : List (String × String)) : List String :=
  ((deps.map Prod.fst).filter
      (fun packageName => jsStartsWith packageName WORDPRESS_NAMESPACE)).map
    (fun packageName => jsReplaceFirst packageName WORDPRESS_NAMESPACE (""))

/-- The spec wording for the derived package list: keep names that start with the
    exact namespace and strip that namespace from the front (11 characters). -/
def packagesSpec (deps : List (String × String)) : List String :=
  ((deps.map Prod.fst).filter
      (fun packageName => jsStartsWith packageName WORDPRESS_NAMESPACE)).map
    (fun packageName => String.mk (packageName.data.drop 11))

/-- The invocation options of the exported factory (line 59). -/
structure Env where
  environment : String
  watch : Bool
  buildTarget : Option String

/-- Line 59: the default parameter used when the factory is invoked without options. -/
def defaultEnv : Env :=
  { environment := ("production"), watch := false, buildTarget := none }

/-- Line 62, right operand of the ternary. -/
def modeTarget (mode : String) : String :=
  if mode = "production" then ("build") else ("src")

/-- Lines 62-63.  A JS buildTarget of false, undefined or the empty string is falsy,
    so the mode-derived root is used; then the fixed segment is appended. -/
def effectiveBuildTarget (env : Env) : String :=
  (match env.buildTarget with
   | some s => if s = "" then modeTarget env.environment else s
   | none => modeTarget env.environment) ++ "/wp-includes"

/-- A copy instruction for the copy plugin; src and dest model the JS from and to
    fields, and an absent optional field models an absent JS object property. -/
structure Copy where
  src : String
  dest : String
  flatten : Bool := false
  transform : Option (String → Except String String) := none
  transformPath : Option (String → String → String) := none
  test : Option String := none

/-- Modelled from the spec: the external JS minifier (UglifyJS, absent from src/)
    yields a result carrying the minified code and possibly a source map; a failure
    on malformed input surfaces as an Except.error. -/
structure MinifyResult where
  code : String
  map : Option String := none

/-- Lines 52-57: one copy instruction per vendor map entry. -/
def mapVendorCopies (baseDir : String) (vendors : List (String × String))
    (buildTarget : String) : List Copy :=
  vendors.map (fun fp =>
    { src := joinPath baseDir ("node_modules/" ++ fp.2),
      dest := joinPath baseDir (buildTarget ++ "/js/dist/vendor/" ++ fp.1) })

/-- Lines 70-80. -/
def vendors : List (String × String) := [
  (("lodash.js"), ("lodash/lodash.js")),
  (("wp-polyfill.js"), ("@babel/polyfill/dist/polyfill.js")),
  (("wp-polyfill-fetch.js"), ("whatwg-fetch/dist/fetch.umd.js")),
  (("wp-polyfill-element-closest.js"), ("element-closest/element-closest.js")),
  (("wp-polyfill-node-contains.js"),
    ("polyfill-library/polyfills/Node/prototype/contains/polyfill.js")),
  (("wp-polyfill-formdata.js"), ("formdata-polyfill/FormData.js")),
  (("moment.js"), ("moment/moment.js")),
  (("react.js"), ("react/umd/react.development.js")),
  (("react-dom.js"), ("react-dom/umd/react-dom.development.js"))]

/-- Lines 82-89. -/
def minifiedVendors : List (String × String) := [
  (("lodash.min.js"), ("lodash/lodash.min.js")),
  (("wp-polyfill.min.js"), ("@babel/polyfill/dist/polyfill.min.js")),
  (("wp-polyfill-formdata.min.js"), ("formdata-polyfill/formdata.min.js")),
  (("moment.min.js"), ("moment/min/moment.min.js")),
  (("react.min.js"), ("react/umd/react.production.min.js")),
  (("react-dom.min.js"), ("react-dom/umd/react-dom.production.min.js"))]

/-- Lines 91-95. -/
def minifyVendors : List (String × String) := [
  (("wp-polyfill-fetch.min.js"), ("whatwg-fetch/dist/fetch.umd.js")),
  (("wp-polyfill-element-closest.min.js"), ("element-closest/element-closest.js")),
  (("wp-polyfill-node-contains.min.js"),
    ("polyfill-library/polyfills/Node/prototype/contains/polyfill.js"))]

/-- Lines 128-130: run the minifier on the content and keep only the code field,
    discarding any source map; a minifier failure is not caught and propagates. -/
def uglifyTransform (minify : String → Except String MinifyResult) (content : String) :
    Except String String :=
  Except.map MinifyResult.code (minify content)

/-- Line 123. -/
def developmentCopies (baseDir buildTarget : String) : List Copy :=
  mapVendorCopies baseDir vendors buildTarget

/-- Line 124. -/
def minifiedCopies (baseDir buildTarget : String) : List Copy :=
  mapVendorCopies baseDir minifiedVendors buildTarget

/-- Lines 125-132: spread each copy command and attach the minifying transform. -/
def minifyCopies (minify : String → Except String MinifyResult)
    (baseDir buildTarget : String) : List Copy :=
  (mapVendorCopies baseDir minifyVendors buildTarget).map
    (fun copyCommand => { copyCommand with transform := some (uglifyTransform minify) })

/-- Line 134: the mode-dependent vendor copy list. -/
def vendorCopies (minify : String → Except String MinifyResult)
    (baseDir buildTarget mode : String) : List Copy :=
  if mode = "development" then developmentCopies baseDir buildTarget
  else minifiedCopies baseDir buildTarget ++ minifyCopies minify baseDir buildTarget

/-- Lines 153-159: targetPath.replace of the anchored .css suffix by .min.css. -/
def replaceCssSuffix (p : String) : String :=
  if (".css").data.isSuffixOf p.data then
    String.mk (p.data.take (p.data.length - 4) ++ (".min.css").data)
  else p

/-- Lines 136-160: the stylesheet copy instruction built for one package.  The
    cssMinify parameter abstracts the postcss cssnano pipeline; its promise
    rejection is Except.error. -/
def cssCopyFor (cssMinify : String → Except String String)
    (baseDir buildTarget mode packageName : String) : Copy :=
  { src := joinPath baseDir ("node_modules/@wordpress/" ++ packageName ++ "/build-style/*.css"),
    dest := joinPath baseDir (buildTarget ++ "/css/dist/" ++ packageName ++ "/"),
    flatten := true,
    transform := some (fun content =>
      if mode = "production" then cssMinify content else Except.ok content),
    transformPath := some (fun targetPath _sourcePath =>
      if mode = "production" then replaceCssSuffix targetPath else targetPath) }

/-- Lines 136-160: one stylesheet copy instruction per package. -/
def cssCopies (cssMinify : String → Except String String)
    (baseDir buildTarget mode : String) (pkgs : List String) : List Copy :=
  pkgs.map (cssCopyFor cssMinify baseDir buildTarget mode)

/-- JS object property assignment on a string-keyed object: overwrite in place when
    the key already exists, append otherwise. -/
def objSet (m : List (String × String)) (k v : String) : List (String × String) :=
  if m.any (fun q => decide (q.1 = k)) then
    m.map (fun q => if q.1 = k then (k, v) else q)
  else m ++ [(k, v)]

/-- Lines 170-174: the entry object built by reduce. -/
def entryOf (baseDir : String) (pkgs : List String) : List (String × String) :=
  pkgs.foldl (fun memo packageName =>
    objSet memo (camelCaseDash packageName)
      (joinPath baseDir ("node_modules/@wordpress/" ++ packageName))) []

/-- Lines 264-266. -/
structure Optimization where
  minimize : Bool

/-- A JS value that is either a string or a number (the live reload port). -/
inductive JsValue where
  | str (s : String)
  | num (n : Nat)

/-- The plugins instantiated by the configuration (lines 202-249, 270). -/
inductive Plugin where
  | definePlugin
  | libraryExportDefault (names : List String)
  | customTemplatedPath
  | dependencyExtraction
  | copyWebpack (copies : List Copy)
  | liveReload (port : JsValue)

/-- Recognizes the live reload plugin. -/
def isLiveReload : Plugin → Bool
  | Plugin.liveReload _ => true
  | _ => false

/-- The configuration object (lines 167-255 plus the later mutations). -/
structure Config where
  mode : String
  entry : List (String × String)
  outputFilename : String
  outputPath : String
  devtool : Option String := none
  optimization : Option Optimization := none
  plugins : List Plugin
  watch : Bool

/-- JS short-circuit or on an environment string: undefined or empty is falsy. -/
def jsStringOr (v : Option String) (dflt : String) : String :=
  match v with
  | some s => if s = "" then dflt else s
  | none => dflt

/-- Line 270: process.env.WORDPRESS_LIVE_RELOAD_PORT || 35729. -/
def jsPortOr (v : Option String) (dflt : Nat) : JsValue :=
  match v with
  | some s => if s = "" then JsValue.num dflt else JsValue.str s
  | none => JsValue.num dflt

/-- Lines 97-109. -/
def blockNames : List String :=
  [("archives"), ("block"), ("calendar"), ("categories"), ("latest-comments"),
   ("latest-posts"), ("navigation"), ("rss"), ("search"), ("shortcode"), ("tag-cloud")]

/-- Lines 110-116: the parser file entry followed by the per-block reduce entries. -/
def phpFiles : List (String × String) :=
  (("block-serialization-default-parser/parser.php"),
    ("wp-includes/class-wp-block-parser.php")) ::
    blockNames.map (fun blockName =>
      ("block-library/src/" ++ blockName ++ "/index.php",
       "wp-includes/blocks/" ++ blockName ++ ".php"))

/-- Lines 162-165. -/
def phpCopies (baseDir : String) : List Copy :=
  phpFiles.map (fun fp =>
    { src := joinPath baseDir ("node_modules/@wordpress/" ++ fp.1),
      dest := joinPath baseDir ("src/" ++ fp.2) })

/-- Lines 117-121. -/
def blockMetadataCopies (baseDir buildTarget : String) : Copy :=
  { src := joinPath baseDir ("node_modules/@wordpress/block-library/src/+(" ++
      String.intercalate ("|") blockNames ++ ")/block.json"),
    dest := joinPath baseDir (buildTarget ++ "/blocks/[1]/block.json"),
    test := some ("\\/([^/]+)\\/block\\.json$") }

/-- Lines 207-215. -/
def exportDefaultPackages : List String :=
  [("api-fetch"), ("deprecated"), ("dom-ready"), ("redux-routine"), ("token-list"),
   ("server-side-render"), ("shortcode")]

/-- Lines 59-255: the configuration object as first constructed. -/
def baseConfig (deps : List (String × String)) (minify : String → Except String MinifyResult)
    (cssMinify : String → Except String String) (baseDir : String) (env : Env) : Config :=
  let mode := env.environment
  let suffix := if mode = "production" then (".min") else ""
  let buildTarget := effectiveBuildTarget env
  let pkgs := packages deps
  { mode := mode,
    entry := entryOf baseDir pkgs,
    outputFilename := "[basename]" ++ suffix ++ ".js",
    outputPath := joinPath baseDir (buildTarget ++ "/js/dist"),
    plugins := [Plugin.definePlugin,
      Plugin.libraryExportDefault (exportDefaultPackages.map camelCaseDash),
      Plugin.customTemplatedPath,
      Plugin.dependencyExtraction,
      Plugin.copyWebpack (vendorCopies minify baseDir buildTarget mode ++
        cssCopies cssMinify baseDir buildTarget mode pkgs ++
        phpCopies baseDir ++ [blockMetadataCopies baseDir buildTarget])],
    watch := env.watch }

/-- Lines 257-259: set the devtool outside production mode. -/
def applyDevtool (sourcemapEnv : Option String) (config : Config) : Config :=
  if config.mode ≠ "production" then
    { config with devtool := some (jsStringOr sourcemapEnv ("source-map")) }
  else config

/-- Lines 261-267: the development build into the build directory. -/
def applyBuildOverride (env : Env) (config : Config) : Config :=
  if env.environment = "development" ∧ env.buildTarget = some ("build/") then
    { config with
      devtool := none
      mode := ("production")
      optimization := some { minimize := false } }
  else config

/-- Lines 269-271: add the live reload plugin in development mode. -/
def applyLiveReload (portEnv : Option String) (config : Config) : Config :=
  if config.mode = "development" then
    { config with plugins := config.plugins ++ [Plugin.liveReload (jsPortOr portEnv 35729)] }
  else config

/-- Lines 59-274: the exported configuration factory.  The dependency manifest of
    package.json, the two external minifiers, the directory of the file and the
    two environment variables are parameters of the embedding. -/
def moduleExports (deps : List (String × String)) (minify : String → Except String MinifyResult)
    (cssMinify : String → Except String String) (baseDir : String)
    (sourcemapEnv portEnv : Option String) (envArg : Option Env) : Config :=
  applyLiveReload portEnv (applyBuildOverride (envArg.getD defaultEnv)
    (applyDevtool sourcemapEnv (baseConfig deps minify cssMinify baseDir
      (envArg.getD defaultEnv))))

/- ===================== helper lemmas ===================== -/

theorem toNat_ofNat_valid (n : Nat) (h : n < 55296) : (Char.ofNat n).toNat = n := by
  simp [Char.ofNat, Nat.isValidChar, h, Char.ofNatAux, Char.toNat, UInt32.ofNat',
    UInt32.toNat, BitVec.toNat_ofNatLt]

theorem isLowerAZ_jsToUpper (c : Char) : isLowerAZ (jsToUpper c) = false := by
  cases hx : isLowerAZ c
  · rw [jsToUpper, if_neg (by simp [hx])]
    exact hx
  · have hb : 97 ≤ c.toNat ∧ c.toNat ≤ 122 := of_decide_eq_true hx
    have hv : (Char.ofNat (c.toNat - 32)).toNat = c.toNat - 32 :=
      toNat_ofNat_valid _ (by omega)
    rw [jsToUpper, if_pos hx]
    unfold isLowerAZ
    rw [hv]
    exact decide_eq_false (by omega)

theorem jsToUpper_ne_dash (c : Char) (h : isLowerAZ c = true) : jsToUpper c ≠ ('-') := by
  have hb : 97 ≤ c.toNat ∧ c.toNat ≤ 122 := of_decide_eq_true h
  have hv : (Char.ofNat (c.toNat - 32)).toNat = c.toNat - 32 :=
    toNat_ofNat_valid _ (by omega)
  intro heq
  have h45 : (jsToUpper c).toNat = 45 := by rw [heq]; rfl
  rw [jsToUpper, if_pos h, hv] at h45
  omega

theorem ccdAux_cons_ne (c : Char) (rest : List Char) (h : c ≠ ('-')) :
    ccdAux (c :: rest) = c :: ccdAux rest :=
  ccdAux.eq_4 c rest (fun hc _ => absurd hc h) (fun _ _ hc _ => absurd hc h)

theorem ccdAux_dash_lower (d : Char) (rest : List Char) (h : isLowerAZ d = true) :
    ccdAux ('-' :: d :: rest) = jsToUpper d :: ccdAux rest := by
  rw [ccdAux.eq_3, if_pos h]

theorem ccdAux_dash_notlower (d : Char) (rest : List Char) (h : isLowerAZ d = false) :
    ccdAux ('-' :: d :: rest) = '-' :: ccdAux (d :: rest) := by
  rw [ccdAux.eq_3, if_neg (by simp [h])]

theorem ccdAux_single (c : Char) : ccdAux [c] = [c] := by
  by_cases h : c = ('-')
  · rw [h]; exact ccdAux.eq_2
  · rw [ccdAux_cons_ne c [] h, ccdAux.eq_1]

theorem noDashLower_single (c : Char) : noDashLower [c] = true := rfl

theorem noDashLower_cons_cons (c d : Char) (rest : List Char) :
    noDashLower (c :: d :: rest) =
      ((!(decide (c = ('-')) && isLowerAZ d)) && noDashLower (d :: rest)) := rfl

theorem ccdAux_head_not_lower (d : Char) (rest : List Char) (hd : isLowerAZ d = false) :
    ∃ e l, ccdAux (d :: rest) = e :: l ∧ isLowerAZ e = false := by
  by_cases hdash : d = ('-')
  · subst hdash
    cases rest with
    | nil => exact ⟨'-', [], rfl, by decide⟩
    | cons r rest2 =>
      cases hr : isLowerAZ r
      · exact ⟨'-', ccdAux (r :: rest2), ccdAux_dash_notlower r rest2 hr, by decide⟩
      · exact ⟨jsToUpper r, ccdAux rest2, ccdAux_dash_lower r rest2 hr, isLowerAZ_jsToUpper r⟩
  · exact ⟨d, ccdAux rest, ccdAux_cons_ne d rest hdash, hd⟩

theorem noDashLower_ccdAux (l : List Char) : noDashLower (ccdAux l) = true := by
  induction l using ccdAux.induct with
  | case1 => rfl
  | case2 => rfl
  | case3 d rest h ih =>
    rw [ccdAux_dash_lower d rest h]
    cases hr : ccdAux rest with
    | nil => exact noDashLower_single _
    | cons e l2 =>
      rw [noDashLower_cons_cons]
      rw [hr] at ih
      rw [ih]
      have hne : decide (jsToUpper d = ('-')) = false :=
        decide_eq_false (jsToUpper_ne_dash d h)
      rw [hne]
      rfl
  | case4 d rest h ih =>
    have hd : isLowerAZ d = false := by
      cases hx : isLowerAZ d
      · rfl
      · exact absurd hx h
    rw [ccdAux_dash_notlower d rest hd]
    obtain ⟨e, l2, heq, he⟩ := ccdAux_head_not_lower d rest hd
    rw [heq]
    rw [heq] at ih
    rw [noDashLower_cons_cons, ih, he]
    simp
  | case5 c rest h1 h2 ih =>
    have hc : c ≠ ('-') := by
      intro hcc
      cases rest with
      | nil => exact h1 hcc rfl
      | cons d rest2 => exact h2 d rest2 hcc rfl
    rw [ccdAux_cons_ne c rest hc]
    cases hr : ccdAux rest with
    | nil => exact noDashLower_single _
    | cons e l2 =>
      rw [noDashLower_cons_cons]
      rw [hr] at ih
      rw [ih]
      simp [hc]

theorem ccdAux_of_noDashLower (l : List Char) (h : noDashLower l = true) :
    ccdAux l = l := by
  induction l using ccdAux.induct with
  | case1 => rfl
  | case2 => rfl
  | case3 d rest hset ih =>
    rw [noDashLower_cons_cons] at h
    rw [hset] at h
    simp at h
  | case4 d rest hset ih =>
    have hd : isLowerAZ d = false := by
      cases hx : isLowerAZ d
      · rfl
      · exact absurd hx hset
    rw [ccdAux_dash_notlower d rest hd]
    rw [noDashLower_cons_cons] at h
    have h2 : noDashLower (d :: rest) = true := by
      cases hy : noDashLower (d :: rest)
      · rw [hy] at h; simp at h
      · rfl
    rw [ih h2]
  | case5 c rest h1 h2 ih =>
    have hc : c ≠ ('-') := by
      intro hcc
      cases rest with
      | nil => exact h1 hcc rfl
      | cons d rest2 => exact h2 d rest2 hcc rfl
    rw [ccdAux_cons_ne c rest hc]
    cases rest with
    | nil => rfl
    | cons d rest2 =>
      rw [noDashLower_cons_cons] at h
      have h3 : noDashLower (d :: rest2) = true := by
        cases hy : noDashLower (d :: rest2)
        · rw [hy] at h; simp at h
        · rfl
      rw [ih h3]

theorem ccdAux_append (l : List Char) (t : List Char)
    (ht : ∀ c l2, t = c :: l2 → isLowerAZ c = false) :
    ccdAux (l ++ t) = ccdAux l ++ ccdAux t := by
  induction l using ccdAux.induct with
  | case1 => simp [ccdAux.eq_1]
  | case2 =>
    cases t with
    | nil => simp [ccdAux.eq_1, ccdAux.eq_2]
    | cons c l2 =>
      have hc : isLowerAZ c = false := ht c l2 rfl
      show ccdAux ('-' :: c :: l2) = ccdAux ['-'] ++ ccdAux (c :: l2)
      rw [ccdAux_dash_notlower c l2 hc, ccdAux.eq_2]
      rfl
  | case3 d rest h ih =>
    show ccdAux ('-' :: d :: (rest ++ t)) = ccdAux ('-' :: d :: rest) ++ ccdAux t
    rw [ccdAux_dash_lower d (rest ++ t) h, ccdAux_dash_lower d rest h, ih]
    rfl
  | case4 d rest h ih =>
    have hd : isLowerAZ d = false := by
      cases hx : isLowerAZ d
      · rfl
      · exact absurd hx h
    show ccdAux ('-' :: d :: (rest ++ t)) = ccdAux ('-' :: d :: rest) ++ ccdAux t
    rw [ccdAux_dash_notlower d (rest ++ t) hd, ccdAux_dash_notlower d rest hd]
    have hcons : d :: (rest ++ t) = (d :: rest) ++ t := rfl
    rw [hcons, ih]
    rfl
  | case5 c rest h1 h2 ih =>
    have hc : c ≠ ('-') := by
      intro hcc
      cases rest with
      | nil => exact h1 hcc rfl
      | cons d rest2 => exact h2 d rest2 hcc rfl
    show ccdAux (c :: (rest ++ t)) = ccdAux (c :: rest) ++ ccdAux t
    rw [ccdAux_cons_ne c (rest ++ t) hc, ccdAux_cons_ne c rest hc, ih]
    rfl

theorem ccdAux_no_dash (l : List Char) (h : ∀ c ∈ l, c ≠ ('-')) : ccdAux l = l := by
  induction l with
  | nil => rfl
  | cons c rest ih =>
    rw [ccdAux_cons_ne c rest (h c (List.mem_cons_self c rest))]
    rw [ih (fun d hd => h d (List.mem_cons_of_mem c hd))]

theorem splitAtFirst_matched (pat l : List Char) (h : pat.isPrefixOf l = true) :
    splitAtFirst pat l = some ([], l.drop pat.length) := by
  cases l with
  | nil => simp [splitAtFirst, h]
  | cons c rest => simp [splitAtFirst, h]

theorem jsReplaceFirst_strip (n : String) (h : jsStartsWith n WORDPRESS_NAMESPACE = true) :
    jsReplaceFirst n WORDPRESS_NAMESPACE ("") = String.mk (n.data.drop 11) := by
  unfold jsStartsWith at h
  unfold jsReplaceFirst
  rw [splitAtFirst_matched _ _ h]
  rfl

theorem objSet_of_not_mem (m : List (String × String)) (k v : String)
    (h : ∀ q ∈ m, q.1 ≠ k) : objSet m k v = m ++ [(k, v)] := by
  unfold objSet
  rw [if_neg]
  intro hany
  obtain ⟨q, hq, hqk⟩ := List.any_eq_true.mp hany
  exact h q hq (of_decide_eq_true hqk)

theorem entry_foldl_generalized (baseDir : String) (pkgs : List String)
    (acc : List (String × String))
    (hnd : (pkgs.map camelCaseDash).Nodup)
    (hacc : ∀ p ∈ pkgs, ∀ q ∈ acc, q.1 ≠ camelCaseDash p) :
    pkgs.foldl (fun memo packageName =>
      objSet memo (camelCaseDash packageName)
        (joinPath baseDir ("node_modules/@wordpress/" ++ packageName))) acc =
    acc ++ pkgs.map (fun p =>
      (camelCaseDash p, joinPath baseDir ("node_modules/@wordpress/" ++ p))) := by
  induction pkgs generalizing acc with
  | nil => simp
  | cons p ps ih =>
    rw [List.foldl_cons]
    rw [objSet_of_not_mem acc (camelCaseDash p) _ (hacc p (List.mem_cons_self p ps))]
    rw [List.map_cons] at hnd
    have hnd2 : (ps.map camelCaseDash).Nodup := hnd.of_cons
    have hne : camelCaseDash p ∉ ps.map camelCaseDash := (List.nodup_cons.mp hnd).1
    have harg : ∀ p2 ∈ ps, ∀ q ∈ acc ++
        [(camelCaseDash p, joinPath baseDir ("node_modules/@wordpress/" ++ p))],
        q.1 ≠ camelCaseDash p2 := by
      intro p2 hp2 q hq
      rcases List.mem_append.mp hq with hq1 | hq2
      · exact hacc p2 (List.mem_cons_of_mem p hp2) q hq1
      · rw [List.mem_singleton.mp hq2]
        intro heq
        apply hne
        have heq2 : camelCaseDash p = camelCaseDash p2 := heq
        rw [heq2]
        exact List.mem_map_of_mem camelCaseDash hp2
    rw [ih _ hnd2 harg, List.map_cons, List.append_assoc]
    rfl

theorem applyDevtool_mode (se : Option String) (config : Config) :
    (applyDevtool se config).mode = config.mode := by
  unfold applyDevtool
  split
  · rfl
  · rfl

theorem applyDevtool_plugins (se : Option String) (config : Config) :
    (applyDevtool se config).plugins = config.plugins := by
  unfold applyDevtool
  split
  · rfl
  · rfl

theorem applyDevtool_devtool_of_dev (se : Option String) (config : Config)
    (h : config.mode ≠ "production") :
    (applyDevtool se config).devtool = some (jsStringOr se ("source-map")) := by
  unfold applyDevtool
  rw [if_pos h]

theorem applyBuildOverride_pos (env : Env) (config : Config)
    (h1 : env.environment = "development") (h2 : env.buildTarget = some ("build/")) :
    (applyBuildOverride env config).mode = "production" ∧
    (applyBuildOverride env config).devtool = none ∧
    (applyBuildOverride env config).optimization = some { minimize := false } ∧
    (applyBuildOverride env config).plugins = config.plugins := by
  unfold applyBuildOverride
  rw [if_pos ⟨h1, h2⟩]
  exact ⟨rfl, rfl, rfl, rfl⟩

theorem applyBuildOverride_neg (env : Env) (config : Config)
    (h : ¬(env.environment = "development" ∧ env.buildTarget = some ("build/"))) :
    applyBuildOverride env config = config := by
  unfold applyBuildOverride
  rw [if_neg h]

theorem applyLiveReload_neg (pe : Option String) (config : Config)
    (h : ¬ config.mode = "development") :
    applyLiveReload pe config = config := by
  unfold applyLiveReload
  rw [if_neg h]

theorem applyLiveReload_pos (pe : Option String) (config : Config)
    (h : config.mode = "development") :
    (applyLiveReload pe config).plugins =
        config.plugins ++ [Plugin.liveReload (jsPortOr pe 35729)] ∧
    (applyLiveReload pe config).mode = config.mode ∧
    (applyLiveReload pe config).devtool = config.devtool := by
  unfold applyLiveReload
  rw [if_pos h]
  exact ⟨rfl, rfl, rfl⟩

theorem baseConfig_mode (deps : List (String × String))
    (minify : String → Except String MinifyResult)
    (cssMinify : String → Except String String) (baseDir : String) (env : Env) :
    (baseConfig deps minify cssMinify baseDir env).mode = env.environment := rfl

theorem baseConfig_no_livereload (deps : List (String × String))
    (minify : String → Except String MinifyResult)
    (cssMinify : String → Except String String) (baseDir : String) (env : Env) :
    ∀ p ∈ (baseConfig deps minify cssMinify baseDir env).plugins, isLiveReload p = false := by
  intro p hp
  simp only [baseConfig, List.mem_cons, List.not_mem_nil, or_false] at hp
  rcases hp with rfl | rfl | rfl | rfl | rfl
  · rfl
  · rfl
  · rfl
  · rfl
  · rfl

/- ===================== claim theorems ===================== -/

/-- Claim C1: camelCaseDash replaces each occurrence of a dash followed by a
    lowercase ASCII letter with the upper-cased letter (dash removed) and leaves
    every other character unchanged; camelCaseDash maps api-fetch to apiFetch,
    leaves a11y unchanged, maps token-list to tokenList, does not upper-case a
    letter following a digit, and leaves a trailing dash or a dash not followed
    by a lowercase letter in place. -/
theorem camelCaseDash_correct :
    camelCaseDash ("api-fetch") = "apiFetch" ∧
    camelCaseDash ("a11y") = "a11y" ∧
    camelCaseDash ("token-list") = "tokenList" ∧
    (∀ s : String, (∀ c ∈ s.data, c ≠ ('-')) → camelCaseDash s = s) ∧
    (∀ (l : List Char) (c : Char), isLowerAZ c = true →
        ccdAux (l ++ ['-', c]) = ccdAux l ++ [jsToUpper c]) ∧
    (∀ l : List Char, ccdAux (l ++ ['-']) = ccdAux l ++ ['-']) ∧
    (∀ (l : List Char) (c : Char), isLowerAZ c = false →
        ccdAux (l ++ ['-', c]) = ccdAux l ++ ['-', c]) ∧
    (∀ (l : List Char) (d c : Char), isDigit09 d = true →
        ccdAux (l ++ [d, c]) = ccdAux l ++ [d, c]) := by
  refine ⟨by decide, by decide, by decide, ?_, ?_, ?_, ?_, ?_⟩
  · intro s h
    unfold camelCaseDash
    rw [ccdAux_no_dash s.data h]
  · intro l c hc
    rw [ccdAux_append l ['-', c]
      (fun e l2 he => by injection he with h1 h2; rw [← h1]; decide)]
    rw [ccdAux_dash_lower c [] hc, ccdAux.eq_1]
  · intro l
    rw [ccdAux_append l ['-']
      (fun e l2 he => by injection he with h1 h2; rw [← h1]; decide)]
    rw [ccdAux.eq_2]
  · intro l c hc
    rw [ccdAux_append l ['-', c]
      (fun e l2 he => by injection he with h1 h2; rw [← h1]; decide)]
    rw [ccdAux_dash_notlower c [] hc, ccdAux_single]
  · intro l d c hd
    have hb : 48 ≤ d.toNat ∧ d.toNat ≤ 57 := of_decide_eq_true hd
    have hdl : isLowerAZ d = false := decide_eq_false (by omega)
    have hdd : d ≠ ('-') := by
      intro heq
      have h45 : d.toNat = 45 := by rw [heq]; rfl
      omega
    rw [ccdAux_append l [d, c]
      (fun e l2 he => by injection he with h1 h2; rw [← h1]; exact hdl)]
    rw [ccdAux_cons_ne d [c] hdd, ccdAux_single]

/-- Witness for claim C1 at concrete inputs. -/
theorem camelCaseDash_correct_witness :
    ccdAux (("x").data ++ ['-', 'y']) = ccdAux (("x").data) ++ [jsToUpper ('y')] :=
  camelCaseDash_correct.2.2.2.2.1 (("x").data) ('y') (by decide)

/-- Claim C2: camelCaseDash is idempotent. -/
theorem camelCaseDash_idempotent (s : String) :
    camelCaseDash (camelCaseDash s) = camelCaseDash s := by
  unfold camelCaseDash
  exact congrArg String.mk (ccdAux_of_noDashLower _ (noDashLower_ccdAux s.data))

/-- Claim C3: the derived package list contains a name iff the dependency name
    starts with the exact namespace, the namespace is stripped, the iteration
    order of the input mapping is preserved, and an empty result is valid. -/
theorem packages_correct :
    (∀ deps : List (String × String), packages deps = packagesSpec deps) ∧
    (∀ (deps : List (String × String)) (p : String),
        p ∈ packages deps ↔
          ∃ n, n ∈ deps.map Prod.fst ∧ jsStartsWith n WORDPRESS_NAMESPACE = true ∧
            p = String.mk (n.data.drop 11)) ∧
    (∀ deps : List (String × String),
        (∀ n ∈ deps.map Prod.fst, jsStartsWith n WORDPRESS_NAMESPACE = false) →
        packages deps = []) := by
  have heq : ∀ deps : List (String × String), packages deps = packagesSpec deps := by
    intro deps
    unfold packages packagesSpec
    apply List.map_congr_left
    intro n hn
    exact jsReplaceFirst_strip n (List.mem_filter.mp hn).2
  refine ⟨heq, ?_, ?_⟩
  · intro deps p
    rw [heq]
    unfold packagesSpec
    simp only [List.mem_map, List.mem_filter]
    constructor
    · rintro ⟨n, ⟨hn, hs⟩, rfl⟩
      exact ⟨n, hn, hs, rfl⟩
    · rintro ⟨n, hn, hs, rfl⟩
      exact ⟨n, ⟨hn, hs⟩, rfl⟩
  · intro deps h
    unfold packages
    have hfil : (deps.map Prod.fst).filter
        (fun packageName => jsStartsWith packageName WORDPRESS_NAMESPACE) = [] := by
      rw [List.filter_eq_nil_iff]
      intro a ha
      rw [h a ha]
      exact Bool.false_ne_true
    rw [hfil]
    rfl

/-- Witness for claim C3: a manifest with no namespaced name yields an empty list. -/
theorem packages_correct_witness :
    packages [(("react"), ("16.8.4"))] = [] :=
  packages_correct.2.2 [(("react"), ("16.8.4"))] (by decide)

/-- Claim C4: the effective build target uses a truthy override as given;
    otherwise it is build for production mode and src for any other mode; the
    fixed segment /wp-includes is always appended, and absent inputs take the
    defaults of line 59. -/
theorem buildTarget_correct :
    (∀ (env : Env) (s : String), env.buildTarget = some s → s ≠ "" →
        effectiveBuildTarget env = s ++ "/wp-includes") ∧
    (∀ env : Env, env.buildTarget = none → env.environment = "production" →
        effectiveBuildTarget env = "build/wp-includes") ∧
    (∀ env : Env, env.buildTarget = none → env.environment ≠ "production" →
        effectiveBuildTarget env = "src/wp-includes") ∧
    (∀ env : Env, env.buildTarget = some ("") →
        effectiveBuildTarget env = effectiveBuildTarget
          { environment := env.environment, watch := env.watch, buildTarget := none }) ∧
    effectiveBuildTarget defaultEnv = "build/wp-includes" ∧
    defaultEnv.environment = "production" ∧ defaultEnv.watch = false ∧
    defaultEnv.buildTarget = none := by
  refine ⟨?_, ?_, ?_, ?_, by decide, rfl, rfl, rfl⟩
  · intro env s hbt hs
    unfold effectiveBuildTarget
    rw [hbt]
    simp only [if_neg hs]
  · intro env hbt hm
    unfold effectiveBuildTarget modeTarget
    rw [hbt, hm]
    rfl
  · intro env hbt hm
    unfold effectiveBuildTarget modeTarget
    rw [hbt]
    rw [if_neg hm]
    rfl
  · intro env hbt
    unfold effectiveBuildTarget
    rw [hbt]
    rfl

/-- Witness for claim C4: an explicit override wins in development mode. -/
theorem buildTarget_correct_witness :
    effectiveBuildTarget
        { environment := ("development"), watch := false, buildTarget := some ("custom") } =
      ("custom") ++ "/wp-includes" :=
  buildTarget_correct.1 _ ("custom") rfl (by decide)

/-- Claim C5: mapVendorCopies produces exactly one copy instruction per vendor
    map entry, in key iteration order, with source the node modules root joined
    with the relative path, destination the base directory joined with the build
    target plus /js/dist/vendor/ plus the filename, and no transform attached. -/
theorem mapVendorCopies_correct :
    (∀ (baseDir buildTarget : String) (vendorsArg : List (String × String)),
        mapVendorCopies baseDir vendorsArg buildTarget =
          vendorsArg.map (fun fp =>
            { src := baseDir ++ "/" ++ ("node_modules/" ++ fp.2),
              dest := baseDir ++ "/" ++ buildTarget ++ "/js/dist/vendor/" ++ fp.1,
              flatten := false, transform := none, transformPath := none,
              test := none : Copy })) ∧
    (mapVendorCopies ("BASE") [(("x.js"), ("pkg/x.js"))] ("build/wp-includes")).map Copy.dest =
      [("BASE/build/wp-includes/js/dist/vendor/x.js")] ∧
    (mapVendorCopies ("BASE") [(("x.js"), ("pkg/x.js"))] ("build/wp-includes")).map Copy.src =
      [("BASE/node_modules/pkg/x.js")] ∧
    (∀ (baseDir buildTarget : String) (vendorsArg : List (String × String)),
        (mapVendorCopies baseDir vendorsArg buildTarget).map Copy.transform =
          List.replicate vendorsArg.length none) := by
  refine ⟨?_, by rfl, by rfl, ?_⟩
  · intro baseDir buildTarget vendorsArg
    unfold mapVendorCopies joinPath
    apply List.map_congr_left
    intro fp _
    simp [Copy.mk.injEq, String.append_assoc]
  · intro baseDir buildTarget vendorsArg
    unfold mapVendorCopies
    rw [List.map_map]
    exact List.map_const' _ none

/-- Claim C6: in development mode the vendor copy list is exactly the unminified
    vendor set with no transforms; in any other mode it is the pre-minified set
    followed by the needs-minification set, the latter carrying the minifying
    content transform. -/
theorem vendorCopies_correct :
    ∀ (minify : String → Except String MinifyResult) (baseDir buildTarget mode : String),
      (mode = "development" →
        vendorCopies minify baseDir buildTarget mode =
          mapVendorCopies baseDir vendors buildTarget ∧
        ∀ c ∈ vendorCopies minify baseDir buildTarget mode, c.transform = none) ∧
      (mode ≠ "development" →
        vendorCopies minify baseDir buildTarget mode =
          minifiedCopies baseDir buildTarget ++ minifyCopies minify baseDir buildTarget ∧
        (∀ c ∈ minifiedCopies baseDir buildTarget, c.transform = none) ∧
        (∀ c ∈ minifyCopies minify baseDir buildTarget,
            c.transform = some (uglifyTransform minify))) := by
  intro minify baseDir buildTarget mode
  constructor
  · intro hm
    rw [vendorCopies, if_pos hm]
    refine ⟨rfl, ?_⟩
    intro c hc
    obtain ⟨fp, _, rfl⟩ := List.mem_map.mp hc
    rfl
  · intro hm
    rw [vendorCopies, if_neg hm]
    refine ⟨rfl, ?_, ?_⟩
    · intro c hc
      obtain ⟨fp, _, rfl⟩ := List.mem_map.mp hc
      rfl
    · intro c hc
      obtain ⟨c0, _, rfl⟩ := List.mem_map.mp hc
      rfl

/-- Witness for claim C6 in development mode. -/
theorem vendorCopies_correct_witness :
    vendorCopies (fun _ => Except.error ("boom")) ("BASE") ("build/wp-includes")
        ("development") =
      mapVendorCopies ("BASE") vendors ("build/wp-includes") :=
  ((vendorCopies_correct (fun _ => Except.error ("boom")) ("BASE") ("build/wp-includes")
    ("development")).1 rfl).1

/-- Claim C7: the stylesheet copy rewrites the .css extension to .min.css and
    applies CSS minification exactly in production mode; in any other mode both
    the content and the destination path pass through unchanged. -/
theorem cssCopies_correct :
    ∀ (cssMinify : String → Except String String)
      (baseDir buildTarget mode packageName : String),
      (mode = "production" →
        (cssCopyFor cssMinify baseDir buildTarget mode packageName).transform =
            some cssMinify ∧
        (cssCopyFor cssMinify baseDir buildTarget mode packageName).transformPath =
            some (fun targetPath _sourcePath => replaceCssSuffix targetPath)) ∧
      (mode ≠ "production" →
        (cssCopyFor cssMinify baseDir buildTarget mode packageName).transform =
            some (fun content => Except.ok content) ∧
        (cssCopyFor cssMinify baseDir buildTarget mode packageName).transformPath =
            some (fun targetPath _sourcePath => targetPath)) ∧
      (∀ pkgs : List String,
        ∀ c ∈ cssCopies cssMinify baseDir buildTarget mode pkgs,
          ∃ p, c = cssCopyFor cssMinify baseDir buildTarget mode p) ∧
      (∀ stem : String, replaceCssSuffix (stem ++ (".css")) = stem ++ (".min.css")) := by
  intro cssMinify baseDir buildTarget mode packageName
  refine ⟨?_, ?_, ?_, ?_⟩
  · intro hm
    constructor
    · show some _ = some cssMinify
      congr 1
      funext content
      rw [if_pos hm]
    · show some _ = some _
      congr 1
      funext targetPath _sourcePath
      rw [if_pos hm]
  · intro hm
    constructor
    · show some _ = some _
      congr 1
      funext content
      rw [if_neg hm]
    · show some _ = some _
      congr 1
      funext targetPath _sourcePath
      rw [if_neg hm]
  · intro pkgs c hc
    obtain ⟨p, _, rfl⟩ := List.mem_map.mp hc
    exact ⟨p, rfl⟩
  · intro stem
    unfold replaceCssSuffix
    have hsuf : (".css").data.isSuffixOf (stem ++ (".css")).data = true := by
      rw [String.data_append]
      exact List.isSuffixOf_iff_suffix.mpr (List.suffix_append stem.data _)
    rw [if_pos hsuf]
    have hlen : (stem ++ (".css")).data.length - 4 = stem.data.length := by
      rw [String.data_append, List.length_append]
      rfl
    rw [hlen, String.data_append]
    have htake : (stem.data ++ (".css").data).take stem.data.length = stem.data := by
      rw [List.take_left]
    rw [htake]
    cases stem with
    | mk data => rfl

/-- Witness for claim C7 in production mode. -/
theorem cssCopies_correct_witness :
    (cssCopyFor (fun s => Except.ok s) ("B") ("build/wp-includes") ("production")
        ("a11y")).transform = some (fun s => Except.ok s) :=
  ((cssCopies_correct (fun s => Except.ok s) ("B") ("build/wp-includes") ("production")
    ("a11y")).1 rfl).1

/-- Claim C8: every needs-minification vendor copy carries the minifying
    transform; when the minifier fails the failure propagates unchanged, and on
    success the transform yields exactly the minified code, never the original
    or empty content. -/
theorem minify_failure_propagates :
    ∀ (minify : String → Except String MinifyResult) (baseDir buildTarget : String),
      (∀ c ∈ minifyCopies minify baseDir buildTarget,
          c.transform = some (uglifyTransform minify)) ∧
      (∀ content err, minify content = Except.error err →
          uglifyTransform minify content = Except.error err) ∧
      (∀ content r, minify content = Except.ok r →
          uglifyTransform minify content = Except.ok r.code) := by
  intro minify baseDir buildTarget
  refine ⟨?_, ?_, ?_⟩
  · intro c hc
    obtain ⟨c0, _, rfl⟩ := List.mem_map.mp hc
    rfl
  · intro content err h
    unfold uglifyTransform
    rw [h]
    rfl
  · intro content r h
    unfold uglifyTransform
    rw [h]
    rfl

/-- Witness for claim C8: a concrete minifier error propagates. -/
theorem minify_failure_propagates_witness :
    uglifyTransform (fun _ => Except.error ("SyntaxError")) ("not js (") =
      Except.error ("SyntaxError") :=
  (minify_failure_propagates (fun _ => Except.error ("SyntaxError")) ("B") ("T")).2.1
    ("not js (") ("SyntaxError") rfl

/-- Counterexample to claim C9 as stated: two distinct package names with the
    same camel-cased form collapse to a single entry key, and the first package
    loses its mapping, so the entry map does not contain one key per package. -/
theorem entry_collision_counterexample :
    camelCaseDash ("a-b") = camelCaseDash ("aB") ∧
    (entryOf ("B") [("a-b"), ("aB")]).length = 1 ∧
    ((("aB"), ("B/node_modules/@wordpress/a-b")) ∉ entryOf ("B") [("a-b"), ("aB")]) := by
  decide

/-- Claim C9, amended: for every package sequence whose camel-cased names are
    pairwise distinct, the entry map has exactly one key per package, the
    camel-cased name, in order, mapped to the package module root path. -/
theorem entry_correct :
    ∀ (baseDir : String) (pkgs : List String),
      (pkgs.map camelCaseDash).Nodup →
      entryOf baseDir pkgs = pkgs.map (fun p =>
        (camelCaseDash p, joinPath baseDir ("node_modules/@wordpress/" ++ p))) ∧
      (entryOf baseDir pkgs).length = pkgs.length ∧
      (∀ p ∈ pkgs, (camelCaseDash p, joinPath baseDir ("node_modules/@wordpress/" ++ p)) ∈
        entryOf baseDir pkgs) := by
  intro baseDir pkgs hnd
  have heq : entryOf baseDir pkgs = pkgs.map (fun p =>
      (camelCaseDash p, joinPath baseDir ("node_modules/@wordpress/" ++ p))) := by
    unfold entryOf
    rw [entry_foldl_generalized baseDir pkgs [] hnd
      (fun p _ q hq => absurd hq (List.not_mem_nil q))]
    rfl
  refine ⟨heq, ?_, ?_⟩
  · rw [heq, List.length_map]
  · intro p hp
    rw [heq]
    exact List.mem_map_of_mem _ hp

/-- Witness for amended claim C9 on the packages of the claim example. -/
theorem entry_correct_witness :
    entryOf ("B") [("a11y"), ("api-fetch")] =
      [(("a11y"), ("B/node_modules/@wordpress/a11y")),
       (("apiFetch"), ("B/node_modules/@wordpress/api-fetch"))] := by
  have h := (entry_correct ("B") [("a11y"), ("api-fetch")] (by decide)).1
  rw [h]
  decide

/-- Claim C10: a development invocation with build target build/ yields a
    configuration rewritten to production mode with minimisation disabled, no
    devtool and no live reload plugin; any other development invocation adds the
    live reload plugin and sets the devtool to the SOURCEMAP variable or
    source-map. -/
theorem exports_dev_override_correct :
    ∀ (deps : List (String × String)) (minify : String → Except String MinifyResult)
      (cssMinify : String → Except String String) (baseDir : String)
      (sourcemapEnv portEnv : Option String) (env : Env),
      env.environment = "development" →
      ((env.buildTarget = some ("build/") →
        (moduleExports deps minify cssMinify baseDir sourcemapEnv portEnv (some env)).mode =
            "production" ∧
        (moduleExports deps minify cssMinify baseDir sourcemapEnv portEnv
            (some env)).optimization = some { minimize := false } ∧
        (moduleExports deps minify cssMinify baseDir sourcemapEnv portEnv (some env)).devtool =
            none ∧
        (∀ p ∈ (moduleExports deps minify cssMinify baseDir sourcemapEnv portEnv
            (some env)).plugins, isLiveReload p = false)) ∧
      (env.buildTarget ≠ some ("build/") →
        (moduleExports deps minify cssMinify baseDir sourcemapEnv portEnv (some env)).mode =
            "development" ∧
        (∃ p ∈ (moduleExports deps minify cssMinify baseDir sourcemapEnv portEnv
            (some env)).plugins, isLiveReload p = true) ∧
        (moduleExports deps minify cssMinify baseDir sourcemapEnv portEnv (some env)).devtool =
            some (jsStringOr sourcemapEnv ("source-map")))) := by
  intro deps minify cssMinify baseDir sourcemapEnv portEnv env hdev
  have hgetD : (some env).getD defaultEnv = env := rfl
  have hbasemode : (baseConfig deps minify cssMinify baseDir env).mode = env.environment :=
    baseConfig_mode deps minify cssMinify baseDir env
  have hdtmode : (applyDevtool sourcemapEnv
      (baseConfig deps minify cssMinify baseDir env)).mode = "development" := by
    rw [applyDevtool_mode, hbasemode, hdev]
  constructor
  · intro hbt
    obtain ⟨hm, hd, ho, hp⟩ := applyBuildOverride_pos env
      (applyDevtool sourcemapEnv (baseConfig deps minify cssMinify baseDir env)) hdev hbt
    have hlr : applyLiveReload portEnv (applyBuildOverride env
        (applyDevtool sourcemapEnv (baseConfig deps minify cssMinify baseDir env))) =
        applyBuildOverride env
          (applyDevtool sourcemapEnv (baseConfig deps minify cssMinify baseDir env)) := by
      apply applyLiveReload_neg
      rw [hm]
      exact fun hcc => absurd hcc (by decide)
    show _ ∧ _ ∧ _ ∧ _
    unfold moduleExports
    rw [hgetD, hlr]
    refine ⟨hm, ho, hd, ?_⟩
    intro p hpmem
    rw [hp, applyDevtool_plugins] at hpmem
    exact baseConfig_no_livereload deps minify cssMinify baseDir env p hpmem
  · intro hbt
    have hov : applyBuildOverride env
        (applyDevtool sourcemapEnv (baseConfig deps minify cssMinify baseDir env)) =
        applyDevtool sourcemapEnv (baseConfig deps minify cssMinify baseDir env) := by
      apply applyBuildOverride_neg
      intro hcc
      exact hbt hcc.2
    obtain ⟨hlp, hlm, hld⟩ := applyLiveReload_pos portEnv
      (applyDevtool sourcemapEnv (baseConfig deps minify cssMinify baseDir env)) hdtmode
    have hdt : (applyDevtool sourcemapEnv
        (baseConfig deps minify cssMinify baseDir env)).devtool =
        some (jsStringOr sourcemapEnv ("source-map")) := by
      apply applyDevtool_devtool_of_dev
      rw [hbasemode, hdev]
      decide
    show _ ∧ _ ∧ _
    unfold moduleExports
    rw [hgetD, hov]
    refine ⟨by rw [hlm, hdtmode], ?_, by rw [hld, hdt]⟩
    refine ⟨Plugin.liveReload (jsPortOr portEnv 35729), ?_, rfl⟩
    rw [hlp]
    exact List.mem_append_right _ (List.mem_singleton.mpr rfl)

/-- Witness for claim C10: the concrete development invocation targeting build/
    is rewritten to production mode. -/
theorem exports_dev_override_correct_witness :
    (moduleExports [] (fun _ => Except.error ("")) (fun s => Except.ok s) ("B") none none
        (some { environment := ("development"), watch := false,
                buildTarget := some ("build/") })).mode = "production" :=
  ((exports_dev_override_correct [] (fun _ => Except.error ("")) (fun s => Except.ok s)
      ("B") none none _ rfl).1 rfl).1
